import Mathlib

/-!
Verification of the SKU dashboard data pipeline.

Part A embeds `process_listing_data.py` (JSON decoding, history flattening,
series reconciliation: merge + per-item forward fill).
Part B embeds `dashboard.py` (dedup, filter/window engine, KPI and
classification computations).

Python/pandas values are modelled shallowly: machine floats become `ℚ`
(no claim here concerns float rounding), nullable cells become `Option ℚ`,
dates become day numbers in `ℤ`, raised exceptions become `Except.error`.
-/

namespace Datavio

/-- A Python value as it can appear in a pandas cell or a decoded JSON
payload: `pnull` is Python `None`, `pnan` a float NaN (pandas missing
marker), the rest mirror JSON scalars, objects and arrays. -/
inductive PyVal : Type where
  | pnull : PyVal
  | pnan : PyVal
  | pstr (s : String) : PyVal
  | pnum (q : ℚ) : PyVal
  | pbool (b : Bool) : PyVal
  | pdict (fields : List (String × PyVal)) : PyVal
  | plist (elems : List PyVal) : PyVal

/-- Is this value a Python `list`? -/
def PyVal.isListVal : PyVal → Bool
  | .plist _ => true
  | _ => false

/-- Is this value a Python `dict`? -/
def PyVal.isDictVal : PyVal → Bool
  | .pdict _ => true
  | _ => false

/-- A scalar in pandas's sense: not a `list` (for which `pd.isna` returns an
elementwise array instead of a single boolean). -/
def PyVal.isScalar : PyVal → Bool
  | .plist _ => false
  | _ => true

/-- `pd.isna` on a scalar: `True` exactly for `None` and NaN; strings,
numbers, booleans and dicts are not missing. -/
def pdIsnaScalar : PyVal → Bool
  | .pnull => true
  | .pnan => true
  | _ => false

/-- The truth test `if pd.isna(raw):` from `safe_parse_json` (line 8 of
`process_listing_data.py`).  For a scalar, `pd.isna` returns a single
boolean.  For a `list`, `pd.isna` returns an elementwise boolean array
(`pandas.isna` is documented to detect missing values elementwise for
array-likes), and Python's truth test on that array raises
`ValueError: The truth value of an array ... is ambiguous` unless the
array has exactly one element. -/
def pdIsnaTruth : PyVal → Except String Bool
  | .plist [x] =>
      if x.isListVal then
        .error "The truth value of an array with more than one element is ambiguous"
      else
        .ok (pdIsnaScalar x)
  | .plist _ =>
      .error "The truth value of an array with more than one element is ambiguous"
  | v => .ok (pdIsnaScalar v)

/-- `safe_parse_json` (lines 6-15 of `process_listing_data.py`), with
`json.loads` abstracted as `loads : String → Option PyVal` (`none` models a
caught `JSONDecodeError`; calling `json.loads` on a non-string raises
`TypeError`, also caught, hence the final catch-all branch returns `none`). -/
def safe_parse_json (loads : String → Option PyVal) (raw : PyVal) :
    Except String (Option PyVal) := do
  let isna ← pdIsnaTruth raw
  if isna then
    return none
  match raw with
  | .pdict fs => return some (.pdict fs)
  | .plist es => return some (.plist es)
  | .pstr s => return loads s
  | _ => return none

/-- `entry.get(k)`: first binding of `k` in a decoded JSON object, `None`
when absent. -/
def pyGet (fields : List (String × PyVal)) (k : String) : Option PyVal :=
  (fields.find? (fun p => p.1 == k)).map (fun p => p.2)

/-- `entry.get(k)` on an arbitrary decoded value (only dicts have keys). -/
def pyGetV (v : PyVal) (k : String) : Option PyVal :=
  match v with
  | .pdict fs => pyGet fs k
  | _ => none

/-- One raw CSV record as seen by the history flatteners: the item
identifier and the history payload cell. -/
structure RawRecord : Type where
  item_id : String
  payload : PyVal

/-- One flattened history row: item identifier, the element's `date` field
and the renamed value field (`revenue` resp. `price`). -/
structure FlatRow : Type where
  item_id : String
  date : Option PyVal
  value : Option PyVal

/-- The rows contributed by a single record in `flatten_revenue_history` /
`flatten_promotion_history` (lines 44-56 resp. 66-78): decode the payload;
a payload that is not a decoded list contributes nothing; each `dict`
element contributes exactly one row, each non-`dict` element is skipped. -/
def recordRows (loads : String → Option PyVal) (valueKey : String)
    (r : RawRecord) : Except String (List FlatRow) := do
  let parsed ← safe_parse_json loads r.payload
  match parsed with
  | some (.plist es) =>
      return es.filterMap (fun e =>
        match e with
        | .pdict fs => some ⟨r.item_id, pyGet fs "date", pyGet fs valueKey⟩
        | _ => none)
  | _ => return []

/-- The common loop of `flatten_revenue_history` and
`flatten_promotion_history` (lines 38-57 and 60-79): iterate over the
records in order, appending each record's contributed rows. -/
def flattenHistory (loads : String → Option PyVal) (valueKey : String) :
    List RawRecord → Except String (List FlatRow)
  | [] => .ok []
  | r :: rest => do
      let rows ← recordRows loads valueKey r
      let restRows ← flattenHistory loads valueKey rest
      return rows ++ restRows

/-- `flatten_revenue_history` (lines 38-57): value field renamed from
`avg_monthly_revenue` to `revenue`. -/
def flatten_revenue_history (loads : String → Option PyVal)
    (df : List RawRecord) : Except String (List FlatRow) :=
  flattenHistory loads "avg_monthly_revenue" df

/-- `flatten_promotion_history` (lines 60-79): value field renamed from
`value` to `price`. -/
def flatten_promotion_history (loads : String → Option PyVal)
    (df : List RawRecord) : Except String (List FlatRow) :=
  flattenHistory loads "value" df

/-! ### Series reconciliation (STEP 6 and STEP 7 of `main`)

The rows below model the flattened series after STEP 5 has parsed their
date columns: a date is a day number in `ℤ`, values are nullable `ℚ`. -/

/-- One revenue-series row after date conversion. -/
structure RevRow : Type where
  item_id : String
  date : ℤ
  revenue : Option ℚ
  deriving DecidableEq

/-- One price-series row after date conversion. -/
structure PrRow : Type where
  item_id : String
  date : ℤ
  price : Option ℚ
  deriving DecidableEq

/-- One merged row (STEP 6 output). -/
structure MRow : Type where
  item_id : String
  date : ℤ
  revenue : Option ℚ
  price : Option ℚ
  deriving DecidableEq

/-- Key of a merged row. -/
def MRow.key (r : MRow) : String × ℤ := (r.item_id, r.date)

/-- STEP 6 (line 122): `pd.merge(revenue_df, promotion_df, on=["item_id",
"date"], how="left")`.  For each left (revenue) row in order: one output
row per matching right (price) row, or a single output row with a null
price when no right row matches.  Rows present only in the price series
contribute nothing (left join). -/
def mergeLeft (rev : List RevRow) (pr : List PrRow) : List MRow :=
  rev.flatMap (fun r =>
    match pr.filter (fun p => p.item_id == r.item_id && p.date == r.date) with
    | [] => [⟨r.item_id, r.date, r.revenue, none⟩]
    | m :: ms => (m :: ms).map (fun p => ⟨r.item_id, r.date, r.revenue, p.price⟩))

/-- Lexicographic order used by `sort_values(by=["item_id", "date"])`
(line 127). -/
def rowLe (a b : MRow) : Prop :=
  a.item_id < b.item_id ∨ (a.item_id = b.item_id ∧ a.date ≤ b.date)

instance : DecidableRel rowLe := fun a b =>
  inferInstanceAs (Decidable (a.item_id < b.item_id ∨
    (a.item_id = b.item_id ∧ a.date ≤ b.date)))

instance : IsTotal MRow rowLe where
  total a b := by
    rcases lt_trichotomy a.item_id b.item_id with h | h | h
    · exact Or.inl (Or.inl h)
    · rcases le_total a.date b.date with hd | hd
      · exact Or.inl (Or.inr ⟨h, hd⟩)
      · exact Or.inr (Or.inr ⟨h.symm, hd⟩)
    · exact Or.inr (Or.inl h)

instance : IsTrans MRow rowLe where
  trans a b c hab hbc := by
    rcases hab with h1 | ⟨e1, d1⟩
    · rcases hbc with h2 | ⟨e2, _⟩
      · exact Or.inl (h1.trans h2)
      · exact Or.inl (e2 ▸ h1)
    · rcases hbc with h2 | ⟨e2, d2⟩
      · exact Or.inl (e1 ▸ h2)
      · exact Or.inr ⟨e1.trans e2, d1.trans d2⟩

/-- STEP 7, first half (line 127): `sort_values(by=["item_id", "date"])`.
Modelled by a stable insertion sort on the lexicographic (item, date)
order; ties in both keys are kept in input order (pandas leaves the order
among fully tied rows unspecified; a deterministic stable sort is one
admissible realisation). -/
def sortRows (rows : List MRow) : List MRow :=
  List.insertionSort rowLe rows

/-- Pointwise update of the per-item forward-fill state. -/
def updLast (acc : String → Option ℚ) (i : String) (v : Option ℚ) :
    String → Option ℚ :=
  fun j => if j = i then v else acc j

/-- STEP 7, second half (line 128):
`merged_df.groupby("item_id")["price"].ffill()`.  Walk the rows in order,
carrying for every item the last non-null price seen in that item's own
rows; a null price is replaced by that carried value (which may still be
null), a non-null price updates the carried value.  Revenue and all other
fields are untouched. -/
def ffillAcc (acc : String → Option ℚ) : List MRow → List MRow
  | [] => []
  | r :: rs =>
      match r.price with
      | some p => r :: ffillAcc (updLast acc r.item_id (some p)) rs
      | none => { r with price := acc r.item_id } :: ffillAcc acc rs

/-- STEP 7 in full: sort by (item, date) ascending, then forward-fill the
price column per item. -/
def ffillStep (rows : List MRow) : List MRow :=
  ffillAcc (fun _ => none) (sortRows rows)

/-- The rows of item `i`, in list order. -/
def itemRows (i : String) (rows : List MRow) : List MRow :=
  rows.filter (fun r => r.item_id == i)

/-- Everything of a merged row except its price; used to state that
forward-filling changes nothing but the price column. -/
def MRow.noPrice (r : MRow) : String × ℤ × Option ℚ :=
  (r.item_id, r.date, r.revenue)

/-- Scalar forward fill of a sequence of nullable values: each null takes
the most recent non-null value before it, nulls with no non-null
predecessor stay null. -/
def ffillSeq : Option ℚ → List (Option ℚ) → List (Option ℚ)
  | _, [] => []
  | last, none :: rest => last :: ffillSeq last rest
  | _, some p :: rest => some p :: ffillSeq (some p) rest

/-! ## Part B: `dashboard.py`

One row of the canonical table as loaded by `load_data` (line 57): the
columns the analytics layer reads.  Revenue and price cells may be NaN
(`Option`); ratings and counts are present on every row of the observed
canonical CSV and are modelled total. -/

/-- One canonical-table row as used by the dashboard. -/
structure DRow : Type where
  item_id : String
  brand_name : String
  title : String
  date : ℤ
  revenue : Option ℚ
  price : Option ℚ
  rating : ℚ
  rating_count : ℤ
  deriving DecidableEq

/-- Key on which the dashboard deduplicates (line 67). -/
def keyOf (r : DRow) : String × ℤ := (r.item_id, r.date)

/-- The sidebar filter configuration (lines 93-129): date range, brand
allow-list and SKU allow-list (empty list = all, mirroring
`sel if sel else all`), and the three sliders. -/
structure Config : Type where
  start_date : ℤ
  end_date : ℤ
  brands : List String
  skus : List String
  rating_thresh : ℚ
  count_thresh : ℤ
  growth_thresh : ℚ
  deriving DecidableEq

/-- First-occurrence deduplication, as performed both by
`drop_duplicates(keep="first")` and by `Series.unique` (which returns
values in order of appearance). -/
def dedupFirst {α : Type} [DecidableEq α] (seen : List α) : List α → List α
  | [] => []
  | x :: xs => if x ∈ seen then dedupFirst seen xs else x :: dedupFirst (x :: seen) xs

/-- Line 67: `raw.drop_duplicates(subset=["item_id", "date"])` — keep the
first row for every (item, date) key. -/
def dropDupRows (seen : List (String × ℤ)) : List DRow → List DRow
  | [] => []
  | r :: rs =>
      if keyOf r ∈ seen then dropDupRows seen rs
      else r :: dropDupRows (keyOf r :: seen) rs

/-- `pandas .sum()` over the revenue column: NaN cells are skipped
(`skipna`), an empty column sums to 0. -/
def revSum (l : List DRow) : ℚ :=
  (l.map (fun r => r.revenue.getD 0)).sum

/-- Python's `min(xs, key=f)` on a nonempty sequence: the first element
attaining the minimal key (later elements replace the current best only on
a strictly smaller key). -/
def pyMinBy (f : ℤ → ℕ) (best : ℤ) : List ℤ → ℤ
  | [] => best
  | x :: xs => if f x < f best then pyMinBy f x xs else pyMinBy f best xs

/-- Code-point lexicographic strict order on character lists, matching how
Python compares strings. -/
def strLtCh : List Char → List Char → Bool
  | [], [] => false
  | [], _ :: _ => true
  | _ :: _, [] => false
  | a :: as, b :: bs =>
      if a.toNat < b.toNat then true
      else if b.toNat < a.toNat then false
      else strLtCh as bs

/-- Non-strict string order derived from `strLtCh`. -/
def strLeb (a b : String) : Bool := ! strLtCh b.data a.data

/-- Insert into a sorted string list. -/
def insertStr (x : String) : List String → List String
  | [] => [x]
  | y :: ys => if strLeb x y then x :: y :: ys else y :: insertStr x ys

/-- `sorted(...)` on strings (lines 119 and 127): stable insertion sort in
Python's code-point lexicographic order; only membership in the result is
ever used downstream. -/
def sortStrings : List String → List String
  | [] => []
  | x :: xs => insertStr x (sortStrings xs)

/-- Per-SKU row of `sku_merged` (lines 159-172). -/
structure SkuRow : Type where
  item_id : String
  brand_name : String
  title : String
  rating : ℚ
  rating_count : ℤ
  revenue_latest : Option ℚ
  revenue_4w : Option ℚ
  growth_pct : Option ℚ
  deriving DecidableEq

/-- The per-SKU growth lambda (lines 169-172): defined only when the
reference revenue is present and strictly positive; a NaN latest revenue
propagates to a NaN (undefined) growth.  `none` models both Python `None`
and NaN, which coincide once stored in the float `growth_pct` column. -/
def skuGrowth (revLatest rev4w : Option ℚ) : Option ℚ :=
  match rev4w with
  | some v =>
      if 0 < v then
        match revLatest with
        | some l => some ((l - v) / v * 100)
        | none => none
      else none
  | none => none

/-- `x > t` on a nullable value, as a pandas boolean mask evaluates it:
NaN compares false. -/
def optGT (x : Option ℚ) (t : ℚ) : Bool :=
  match x with
  | some v => decide (t < v)
  | none => false

/-- `x < 0` on a nullable value, NaN comparing false (line 374). -/
def optNeg (x : Option ℚ) : Bool :=
  match x with
  | some v => decide (v < 0)
  | none => false

/-- `risk_label` (lines 268-272): At Risk wins over High-Scaling in the
single-label scatter view, Stable otherwise. -/
def riskLabel (cfg : Config) (s : SkuRow) : String :=
  if s.rating < cfg.rating_thresh ∧ cfg.count_thresh < s.rating_count then
    "At Risk"
  else if optGT s.growth_pct cfg.growth_thresh ∧ cfg.rating_thresh ≤ s.rating then
    "High-Scaling"
  else "Stable"

/-- Line 113: the deduplicated table restricted to the inclusive date
range. -/
def itemDF (t : List DRow) (cfg : Config) : List DRow :=
  (dropDupRows [] t).filter
    (fun r => decide (cfg.start_date ≤ r.date) && decide (r.date ≤ cfg.end_date))

/-- Line 116: `item_df["date"].unique()` — the distinct dates of the
date-filtered table, in order of first appearance. -/
def datesOf (t : List DRow) (cfg : Config) : List ℤ :=
  dedupFirst [] ((itemDF t cfg).map (fun r => r.date))

/-- Line 114: `LATEST_DATE = item_df["date"].max()` (0 is a dummy for the
empty case, in which `dashboard` errors before using it). -/
def latestDateOf (t : List DRow) (cfg : Config) : ℤ :=
  match datesOf t cfg with
  | [] => 0
  | d :: ds => ds.foldl max d

/-- Line 115: `FOUR_W_AGO = LATEST_DATE - pd.Timedelta(weeks=4)`. -/
def fourWAgoOf (t : List DRow) (cfg : Config) : ℤ :=
  latestDateOf t cfg - 28

/-- Lines 116-117: the distinct date nearest to `FOUR_W_AGO`; Python's
`min(..., key=...)` keeps the first minimiser in `unique()` order. -/
def nearestOf (t : List DRow) (cfg : Config) : ℤ :=
  match datesOf t cfg with
  | [] => 0
  | d :: ds => pyMinBy (fun x => (x - fourWAgoOf t cfg).natAbs) d ds

/-- Line 119: `all_brands = sorted(item_df["brand_name"].unique())`. -/
def allBrandsOf (t : List DRow) (cfg : Config) : List String :=
  sortStrings (dedupFirst [] ((itemDF t cfg).map (fun r => r.brand_name)))

/-- Line 121: `active_brands = sel_brands if sel_brands else all_brands`. -/
def activeBrandsOf (t : List DRow) (cfg : Config) : List String :=
  if cfg.brands = [] then allBrandsOf t cfg else cfg.brands

/-- Line 127: the SKUs of the brand-filtered table, sorted. -/
def allSkusOf (t : List DRow) (cfg : Config) : List String :=
  sortStrings (dedupFirst []
    (((itemDF t cfg).filter
        (fun r => (activeBrandsOf t cfg).contains r.brand_name)).map
      (fun r => r.item_id)))

/-- Line 129: `active_skus = sel_skus if sel_skus else all_skus`. -/
def activeSkusOf (t : List DRow) (cfg : Config) : List String :=
  if cfg.skus = [] then allSkusOf t cfg else cfg.skus

/-- Line 131: the filtered table `filt`. -/
def filtOf (t : List DRow) (cfg : Config) : List DRow :=
  (itemDF t cfg).filter
    (fun r => (activeBrandsOf t cfg).contains r.brand_name &&
      (activeSkusOf t cfg).contains r.item_id)

/-- Line 148: `latest = filt[filt["date"] == LATEST_DATE]`. -/
def latestSnapOf (t : List DRow) (cfg : Config) : List DRow :=
  (filtOf t cfg).filter (fun r => r.date == latestDateOf t cfg)

/-- Line 149: `prev = filt[filt["date"] == nearest_4w]`. -/
def prevSnapOf (t : List DRow) (cfg : Config) : List DRow :=
  (filtOf t cfg).filter (fun r => r.date == nearestOf t cfg)

/-- Line 151. -/
def totalRevLatestOf (t : List DRow) (cfg : Config) : ℚ :=
  revSum (latestSnapOf t cfg)

/-- Line 152. -/
def totalRev4wOf (t : List DRow) (cfg : Config) : ℚ :=
  revSum (prevSnapOf t cfg)

/-- Line 153: portfolio growth; Python float truthiness makes the guard
`total_rev_4w != 0`. -/
def growthPctOf (t : List DRow) (cfg : Config) : ℚ :=
  if totalRev4wOf t cfg ≠ 0 then
    (totalRevLatestOf t cfg - totalRev4wOf t cfg) / totalRev4wOf t cfg * 100
  else 0

/-- Line 155: the at-risk rows of the latest snapshot. -/
def riskyOf (t : List DRow) (cfg : Config) : List DRow :=
  (latestSnapOf t cfg).filter
    (fun r => decide (r.rating < cfg.rating_thresh) &&
      decide (cfg.count_thresh < r.rating_count))

/-- Line 156. -/
def revAtRiskOf (t : List DRow) (cfg : Config) : ℚ :=
  revSum (riskyOf t cfg)

/-- Lines 159-172: `sku_latest` / `sku_prev` / `sku_merged`.  `groupby`
sorts its keys; since the latest snapshot holds at most one row per item
(it is a one-date slice of a (item, date)-deduplicated table), the
`"first"` aggregations reduce to that row's cell values, and the
`how="left"` merge with `sku_prev` reduces to a lookup returning NaN
(`none`) for items absent from the reference snapshot. -/
def skuMergedOf (t : List DRow) (cfg : Config) : List SkuRow :=
  (sortStrings (dedupFirst [] ((latestSnapOf t cfg).map (fun r => r.item_id)))).filterMap
    (fun i =>
      ((latestSnapOf t cfg).find? (fun r => r.item_id == i)).map (fun r =>
        let r4 := ((prevSnapOf t cfg).find? (fun p => p.item_id == i)).bind
          (fun p => p.revenue)
        { item_id := i, brand_name := r.brand_name, title := r.title,
          rating := r.rating, rating_count := r.rating_count,
          revenue_latest := r.revenue, revenue_4w := r4,
          growth_pct := skuGrowth r.revenue r4 }))

/-- Lines 174-176: the high-scaling reporting set, computed from the
growth and rating predicates alone (no At-Risk exclusion). -/
def highScalingOf (t : List DRow) (cfg : Config) : List SkuRow :=
  (skuMergedOf t cfg).filter
    (fun s => optGT s.growth_pct cfg.growth_thresh &&
      decide (cfg.rating_thresh ≤ s.rating))

/-- Line 374: the declining set (membership only; the display sort does
not change membership). -/
def decliningOf (t : List DRow) (cfg : Config) : List SkuRow :=
  (skuMergedOf t cfg).filter (fun s => optNeg s.growth_pct)

/-- Line 180: `avg_rating = latest["rating"].mean() if len(latest) else 0`. -/
def avgRatingOf (t : List DRow) (cfg : Config) : ℚ :=
  if (latestSnapOf t cfg).length ≠ 0 then
    ((latestSnapOf t cfg).map (fun r => r.rating)).sum / (latestSnapOf t cfg).length
  else 0

/-- Lines 266-272: the scatter rows (`dropna(subset=["growth_pct"])`) with
their single classification label. -/
def scatterOf (t : List DRow) (cfg : Config) : List (SkuRow × String) :=
  ((skuMergedOf t cfg).filter (fun s => s.growth_pct.isSome)).map
    (fun s => (s, riskLabel cfg s))

/-- Line 307: `brand_rev = latest.groupby("brand_name")["revenue"].sum()`. -/
def brandRevOf (t : List DRow) (cfg : Config) (b : String) : ℚ :=
  revSum ((latestSnapOf t cfg).filter (fun r => r.brand_name == b))

/-- Everything the claims consult, bundled. -/
structure Outputs : Type where
  item_df : List DRow
  dates : List ℤ
  latest_date : ℤ
  nearest_4w : ℤ
  filt : List DRow
  latest_snap : List DRow
  prev_snap : List DRow
  risky : List DRow
  total_rev_latest : ℚ
  total_rev_4w : ℚ
  growth_pct : ℚ
  rev_at_risk : ℚ
  avg_rating : ℚ
  sku_merged : List SkuRow
  high_scaling : List SkuRow
  declining : List SkuRow
  scatter : List (SkuRow × String)
  deriving DecidableEq

/-- All derived quantities of a dashboard run. -/
def outputsOf (t : List DRow) (cfg : Config) : Outputs where
  item_df := itemDF t cfg
  dates := datesOf t cfg
  latest_date := latestDateOf t cfg
  nearest_4w := nearestOf t cfg
  filt := filtOf t cfg
  latest_snap := latestSnapOf t cfg
  prev_snap := prevSnapOf t cfg
  risky := riskyOf t cfg
  total_rev_latest := totalRevLatestOf t cfg
  total_rev_4w := totalRev4wOf t cfg
  growth_pct := growthPctOf t cfg
  rev_at_risk := revAtRiskOf t cfg
  avg_rating := avgRatingOf t cfg
  sku_merged := skuMergedOf t cfg
  high_scaling := highScalingOf t cfg
  declining := decliningOf t cfg
  scatter := scatterOf t cfg

/-- The dashboard run, from `load_data`'s table and the sidebar
configuration to all derived quantities.  Two ways to stop early, exactly
as in the script: lines 109-111 reject `start > end` (`st.stop`), and
lines 116-117 raise `ValueError` when the date-filtered table is empty,
because `min` is applied to the empty array of distinct dates. -/
def dashboard (t : List DRow) (cfg : Config) : Except String Outputs :=
  if cfg.start_date > cfg.end_date then
    .error "Start Date must be before End Date."
  else
    match datesOf t cfg with
    | [] => .error "min() arg is an empty sequence"
    | _ :: _ => .ok (outputsOf t cfg)

/-- Sum, over a list of (item, date) keys, of the canonical table's
first-row revenue for each key: the reference value for "count this
(item, date)'s revenue exactly once". -/
def sumOnceByKey (t : List DRow) (ks : List (String × ℤ)) : ℚ :=
  (ks.map (fun k =>
    ((t.find? (fun r => keyOf r == k)).bind (fun r => r.revenue)).getD 0)).sum

/-! ### Concrete instances used by witnesses and counterexamples -/

/-- C1: a revenue series sampled at day 1 only. -/
def revC1 : List RevRow := [⟨"X", 1, some 10⟩]

/-- C1: a price series sampled at day 2 only. -/
def prC1 : List PrRow := [⟨"X", 2, some 5⟩]

/-- C2: a canonical table observed at days 0 and 31 only. -/
def tC2 : List DRow :=
  [⟨"A", "B1", "t", 0, some 1, none, 4, 100⟩,
   ⟨"C", "B1", "t", 31, some 1, none, 4, 100⟩]

/-- C2: a valid date range (10 ≤ 20, inside the observed span 0..31) that
matches no observed date. -/
def cfgC2 : Config := ⟨10, 20, [], [], 4, 200, 20⟩

/-- C4: three raw rows sharing item "X" and day 0 with the same revenue,
simulating variant repetition. -/
def tC4 : List DRow :=
  [⟨"X", "B1", "t", 0, some 1, none, 4, 100⟩,
   ⟨"X", "B1", "t", 0, some 1, none, 4, 100⟩,
   ⟨"X", "B1", "t", 0, some 1, none, 4, 100⟩]

/-- C4: an unrestrictive filter configuration. -/
def cfgC4 : Config := ⟨0, 100, [], [], 4, 200, 20⟩

/-- C5: item "A" observed at days 24 and 47, item "B" at day 14; the table
is in canonical (item, date) order, so the appearance order of the
distinct dates is 24, 47, 14. -/
def tC5 : List DRow :=
  [⟨"A", "B1", "t", 24, some 1, none, 4, 100⟩,
   ⟨"A", "B1", "t", 47, some 1, none, 4, 100⟩,
   ⟨"B", "B1", "t", 14, some 1, none, 4, 100⟩]

/-- C5: an unrestrictive filter configuration.  Latest date 47, target
47 − 28 = 19; days 24 and 14 are both 5 days from the target. -/
def cfgC5 : Config := ⟨0, 100, [], [], 4, 200, 20⟩

/-- C6: one item observed at days 0 and 28 with revenues 1 and 2. -/
def tC6 : List DRow :=
  [⟨"A", "B1", "t", 0, some 1, none, 4, 100⟩,
   ⟨"A", "B1", "t", 28, some 2, none, 4, 100⟩]

/-- C6: an unrestrictive filter configuration. -/
def cfgC6 : Config := ⟨0, 100, [], [], 4, 200, 20⟩

/-- C6: the per-SKU row the dashboard derives for item "A" of `tC6`. -/
def sC6 : SkuRow :=
  ⟨"A", "B1", "t", 4, 100, some 2, some 1, skuGrowth (some 2) (some 1)⟩

/-- C7: item "A" observed on the latest day only; item "B" provides the
reference date but is excluded by the SKU filter. -/
def tC7 : List DRow :=
  [⟨"A", "B1", "t", 28, some 1, none, 4, 100⟩,
   ⟨"B", "B2", "t", 0, some 1, none, 4, 100⟩]

/-- C7: SKU allow-list restricted to "A", so the reference snapshot is
empty. -/
def cfgC7 : Config := ⟨0, 100, [], ["A"], 4, 200, 20⟩

/-- C10: one item with low rating (3 < 4), entrenched review count
(500 > 200) and positive growth. -/
def tC10 : List DRow :=
  [⟨"A", "B1", "t", 0, some 1, none, 3, 500⟩,
   ⟨"A", "B1", "t", 28, some 2, none, 3, 500⟩]

/-- C10: the default thresholds. -/
def cfgC10 : Config := ⟨0, 100, [], [], 4, 200, 20⟩

/-- C10: the per-SKU row the dashboard derives for item "A" of `tC10`. -/
def sC10 : SkuRow :=
  ⟨"A", "B1", "t", 3, 500, some 2, some 1, skuGrowth (some 2) (some 1)⟩

/-- C9: a concrete `json.loads` behaviour: one well-formed payload text
decoding to a two-element array (an object and a stray number), all other
texts failing to decode. -/
def loadsC9 : String → Option PyVal := fun s =>
  if s = "good" then
    some (.plist [.pdict [("date", .pstr "2024-01-01"),
                          ("avg_monthly_revenue", .pnum 5)],
                  .pnum 7])
  else none

/-- C9: three records — a well-formed history, a malformed text, and a
missing (NaN) cell. -/
def dfC9 : List RawRecord :=
  [⟨"A", .pstr "good"⟩, ⟨"B", .pstr "notjson"⟩, ⟨"C", .pnan⟩]

/-! ## Theorems -/

/-- Claim C8 (code bug): the Safe JSON Decoder is claimed never to raise
and to return already-structured sequences as-is, but handing it a
pre-structured two-element sequence makes the `pd.isna` truth test raise
`ValueError` (elementwise missingness array with ambiguous truth value),
whatever `json.loads` does.  This theorem evaluates the decoder at that
failing input. -/
theorem c8_decoder_raises_on_structured_sequence
    (loads : String → Option PyVal) :
    safe_parse_json loads (.plist [.pdict [], .pdict []]) =
      .error "The truth value of an array with more than one element is ambiguous" :=
  rfl

/-- Claim C1 (counterexample): the reconciler is claimed to be a full
outer join, so the price-only key ("X", day 2) — present in the promotion
series — should appear in the merged output; under the code's left join it
does not. -/
theorem c1_left_join_drops_price_only_dates :
    (("X", (2:ℤ)) ∈
      (revC1.map (fun r => (r.item_id, r.date)) ++
        prC1.map (fun p => (p.item_id, p.date))))
    ∧ ("X", (2:ℤ)) ∉ (mergeLeft revC1 prC1).map MRow.key := by
  decide

/-- Claim C1 (amended): the Series Reconciler performs a left join of the
price series onto the revenue series on (item identifier, date): a key
appears in the merged output exactly when it appears in the revenue
series; keys present only in the price series are dropped. -/
theorem c1_merged_keys_are_revenue_keys (rev : List RevRow) (pr : List PrRow)
    (k : String × ℤ) :
    k ∈ (mergeLeft rev pr).map MRow.key ↔
      k ∈ rev.map (fun r => (r.item_id, r.date)) := by
  constructor
  · intro h
    rcases List.mem_map.mp h with ⟨m, hm, rfl⟩
    rcases List.mem_flatMap.mp hm with ⟨r, hr, hmr⟩
    have hkey : m.key = (r.item_id, r.date) := by
      rcases hfilter : pr.filter
          (fun p => p.item_id == r.item_id && p.date == r.date) with _ | ⟨p0, ps⟩
      · rw [hfilter] at hmr
        rcases List.mem_singleton.mp hmr with rfl
        rfl
      · rw [hfilter] at hmr
        rcases List.mem_map.mp hmr with ⟨p, _, rfl⟩
        rfl
    rw [hkey]
    exact List.mem_map.mpr ⟨r, hr, rfl⟩
  · intro h
    rcases List.mem_map.mp h with ⟨r, hr, rfl⟩
    apply List.mem_map.mpr
    rcases hfilter : pr.filter
        (fun p => p.item_id == r.item_id && p.date == r.date) with _ | ⟨p0, ps⟩
    · refine ⟨⟨r.item_id, r.date, r.revenue, none⟩,
        List.mem_flatMap.mpr ⟨r, hr, ?_⟩, rfl⟩
      rw [hfilter]
      exact List.mem_singleton_self _
    · refine ⟨⟨r.item_id, r.date, r.revenue, p0.price⟩,
        List.mem_flatMap.mpr ⟨r, hr, ?_⟩, rfl⟩
      rw [hfilter]
      exact List.mem_cons_self _ _

/-- On a scalar payload the `pd.isna` truth test cannot raise. -/
theorem pdIsnaTruth_scalar (v : PyVal) (h : v.isScalar = true) :
    pdIsnaTruth v = .ok (pdIsnaScalar v) := by
  cases v <;> simp_all [PyVal.isScalar, pdIsnaTruth]

/-- On a scalar payload the decoder cannot raise. -/
theorem safe_parse_scalar_ok (loads : String → Option PyVal) (v : PyVal)
    (h : v.isScalar = true) :
    ∃ o, safe_parse_json loads v = .ok o := by
  unfold safe_parse_json
  rw [pdIsnaTruth_scalar v h]
  cases v <;> simp [pdIsnaScalar] <;> exact ⟨_, rfl⟩

/-- Emitting one row per dict element is the same as filtering to the dict
elements and mapping each to its row. -/
theorem filterMap_dict_rows (i dk vk : String) (es : List PyVal) :
    (es.filterMap (fun e =>
      match e with
      | .pdict fs => some (⟨i, pyGet fs dk, pyGet fs vk⟩ : FlatRow)
      | _ => none))
    = (es.filter PyVal.isDictVal).map
        (fun e => ⟨i, pyGetV e dk, pyGetV e vk⟩) := by
  induction es with
  | nil => rfl
  | cons e es ih =>
      cases e <;>
        simp [List.filterMap_cons, List.filter_cons, PyVal.isDictVal, pyGetV, ih]

/-- Binding an `Except.ok` just applies the continuation. -/
theorem except_bind_ok {α β : Type} (a : α) (f : α → Except String β) :
    (do
      let x ← (.ok a : Except String α)
      f x) = f a :=
  rfl

/-- The per-record contribution, written with the decoder applied
directly. -/
def recordContribution (loads : String → Option PyVal) (valueKey : String)
    (r : RawRecord) : List FlatRow :=
  match safe_parse_json loads r.payload with
  | .ok (some (.plist es)) =>
      (es.filter PyVal.isDictVal).map
        (fun e => ⟨r.item_id, pyGetV e "date", pyGetV e valueKey⟩)
  | _ => []

/-- On a scalar payload, `recordRows` succeeds and computes the
per-record contribution. -/
theorem recordRows_scalar (loads : String → Option PyVal) (valueKey : String)
    (r : RawRecord) (h : r.payload.isScalar = true) :
    recordRows loads valueKey r = .ok (recordContribution loads valueKey r) := by
  obtain ⟨o, ho⟩ := safe_parse_scalar_ok loads r.payload h
  unfold recordRows recordContribution
  rw [ho, except_bind_ok]
  rcases o with _ | v
  · rfl
  · cases v <;> simp [filterMap_dict_rows] <;> rfl

/-- Claim C9 (confirmed): over records whose payload cell is scalar (a
text or a missing value, as all cells read from the raw CSV are), the
History Flattener never raises and its output is the concatenation, record
by record, of each record's own contribution; a record whose payload fails
to decode or does not decode to a sequence contributes zero rows without
affecting any other record, and within a decoded sequence exactly the
dict elements each contribute one flat row (item identifier, `date` field,
renamed value field), non-dict elements being skipped individually. -/
theorem c9_flattener_per_record_tolerance (loads : String → Option PyVal)
    (valueKey : String) (df : List RawRecord)
    (h : ∀ r ∈ df, r.payload.isScalar = true) :
    flattenHistory loads valueKey df =
      .ok (df.flatMap (recordContribution loads valueKey)) := by
  induction df with
  | nil => rfl
  | cons r rest ih =>
      have hr := recordRows_scalar loads valueKey r (h r (List.mem_cons_self _ _))
      have hrest := ih (fun x hx => h x (List.mem_cons_of_mem _ hx))
      unfold flattenHistory
      rw [hr, except_bind_ok, hrest, except_bind_ok, List.flatMap_cons]
      rfl

/-- Claim C9 witness: three concrete records — a history decoding to one
dict element plus one stray number, a malformed text, and a missing cell —
flatten to exactly the single row of the first record's dict element. -/
theorem c9_witness :
    (∀ r ∈ dfC9, r.payload.isScalar = true)
    ∧ flattenHistory loadsC9 "avg_monthly_revenue" dfC9 =
        .ok (dfC9.flatMap (recordContribution loadsC9 "avg_monthly_revenue"))
    ∧ flattenHistory loadsC9 "avg_monthly_revenue" dfC9 =
        .ok [⟨"A", some (.pstr "2024-01-01"), some (.pnum 5)⟩] :=
  ⟨by decide,
   c9_flattener_per_record_tolerance loadsC9 "avg_monthly_revenue" dfC9 (by decide),
   rfl⟩

/-- Forward-filling never alters anything but the price column. -/
theorem ffillAcc_noPrice :
    ∀ (l : List MRow) (acc : String → Option ℚ),
      (ffillAcc acc l).map MRow.noPrice = l.map MRow.noPrice := by
  intro l
  induction l with
  | nil => intro acc; rfl
  | cons r rs ih =>
      intro acc
      cases hp : r.price with
      | some p => simp [ffillAcc, hp, MRow.noPrice, ih]
      | none => simp [ffillAcc, hp, MRow.noPrice, ih]

/-- Key invariant of the grouped forward fill: restricted to one item, the
output is exactly the scalar forward fill of that item's own price
sequence, seeded with the carried state for that item.  No other item's
prices can influence it. -/
theorem ffillAcc_item (i : String) :
    ∀ (l : List MRow) (acc : String → Option ℚ),
      (itemRows i (ffillAcc acc l)).map MRow.noPrice
        = (itemRows i l).map MRow.noPrice
      ∧ (itemRows i (ffillAcc acc l)).map (fun r => r.price)
        = ffillSeq (acc i) ((itemRows i l).map (fun r => r.price)) := by
  intro l
  induction l with
  | nil => intro acc; exact ⟨rfl, rfl⟩
  | cons r rs ih =>
      intro acc
      by_cases hi : r.item_id = i
      · subst hi
        cases hp : r.price with
        | some p =>
            have h := ih (updLast acc r.item_id (some p))
            constructor
            · simpa [ffillAcc, hp, itemRows, List.filter_cons] using h.1
            · have hupd : updLast acc r.item_id (some p) r.item_id = some p := by
                simp [updLast]
              simpa [ffillAcc, hp, itemRows, List.filter_cons, ffillSeq, hupd]
                using h.2
        | none =>
            have h := ih acc
            constructor
            · simpa [ffillAcc, hp, itemRows, List.filter_cons, MRow.noPrice]
                using h.1
            · simpa [ffillAcc, hp, itemRows, List.filter_cons, ffillSeq]
                using h.2
      · cases hp : r.price with
        | some p =>
            have h := ih (updLast acc r.item_id (some p))
            have hupd : updLast acc r.item_id (some p) i = acc i := by
              simp [updLast]
              intro he
              exact absurd he.symm hi
            constructor
            · simpa [ffillAcc, hp, itemRows, List.filter_cons, hi] using h.1
            · simpa [ffillAcc, hp, itemRows, List.filter_cons, hi, hupd] using h.2
        | none =>
            have h := ih acc
            constructor
            · simpa [ffillAcc, hp, itemRows, List.filter_cons, hi] using h.1
            · simpa [ffillAcc, hp, itemRows, List.filter_cons, hi] using h.2

/-- Within one item, the sorted merged rows are in ascending date order. -/
theorem itemRows_date_sorted (rows : List MRow) (i : String) :
    ((itemRows i (sortRows rows)).map (fun r => r.date)).Sorted (· ≤ ·) := by
  have hs : (sortRows rows).Sorted rowLe :=
    List.sorted_insertionSort rowLe rows
  have hsub : List.Sublist (itemRows i (sortRows rows)) (sortRows rows) :=
    List.filter_sublist _
  have hp : (itemRows i (sortRows rows)).Pairwise rowLe :=
    List.Pairwise.sublist hsub hs
  refine List.pairwise_map.mpr ?_
  refine List.Pairwise.imp_of_mem ?_ hp
  intro a b ha hb hab
  have hai : a.item_id = i := by
    have := (List.mem_filter.mp ha).2
    simpa using this
  have hbi : b.item_id = i := by
    have := (List.mem_filter.mp hb).2
    simpa using this
  rcases hab with hlt | ⟨_, hd⟩
  · rw [hai, hbi] at hlt
    exact absurd hlt (lt_irrefl i)
  · exact hd

/-- Claim C3 (confirmed): forward-filling is item-scoped.  For every item
`i`: (1) the filled table has the same rows (identifier, date, revenue) as
the sorted merged table — in particular revenue is never filled; (2) the
prices of item `i`'s rows are exactly the scalar forward fill, seeded with
null, of item `i`'s own price sequence in date-sorted order — so each null
price takes the most recent known price at or before its date within the
same item, leading nulls stay null, and no other item's price sample is
ever consulted; (3) item `i`'s rows are indeed in ascending date order
when the fill is applied. -/
theorem c3_ffill_item_scoped (rows : List MRow) (i : String) :
    (ffillStep rows).map MRow.noPrice = (sortRows rows).map MRow.noPrice
    ∧ (itemRows i (ffillStep rows)).map MRow.noPrice
      = (itemRows i (sortRows rows)).map MRow.noPrice
    ∧ (itemRows i (ffillStep rows)).map (fun r => r.price)
      = ffillSeq none ((itemRows i (sortRows rows)).map (fun r => r.price))
    ∧ ((itemRows i (sortRows rows)).map (fun r => r.date)).Sorted (· ≤ ·) := by
  have h := ffillAcc_item i (sortRows rows) (fun _ => none)
  exact ⟨ffillAcc_noPrice (sortRows rows) (fun _ => none), h.1, h.2,
    itemRows_date_sorted rows i⟩

/-- A successful dashboard run returns exactly the derived quantities. -/
theorem dashboard_ok_out {t : List DRow} {cfg : Config} {out : Outputs}
    (h : dashboard t cfg = .ok out) : out = outputsOf t cfg := by
  unfold dashboard at h
  split at h
  · exact Except.noConfusion h
  · split at h
    · exact Except.noConfusion h
    · injection h with h
      exact h.symm

/-- A successful dashboard run has a nonempty set of distinct dates. -/
theorem dashboard_ok_dates {t : List DRow} {cfg : Config} {out : Outputs}
    (h : dashboard t cfg = .ok out) : datesOf t cfg ≠ [] := by
  unfold dashboard at h
  split at h
  · exact Except.noConfusion h
  · split at h
    · exact Except.noConfusion h
    · next d ds heq =>
        intro hnil
        rw [hnil] at heq
        exact List.noConfusion heq

/-- Claim C2 (code bug): a valid configuration (start 10 ≤ end 20, both
inside the observed range 0..31) whose date filter matches no row makes
the run raise `ValueError` at the nearest-reference-date computation
(`min` of an empty sequence), instead of degrading to zero/"not
available" KPI values. -/
theorem c2_empty_date_filter_raises :
    dashboard tC2 cfgC2 = .error "min() arg is an empty sequence" := rfl

/-- Every row surviving deduplication is the first row of the original
table bearing its (item, date) key, and its key avoids the seen set. -/
theorem dropDupRows_find :
    ∀ (t : List DRow) (seen : List (String × ℤ)) (r : DRow),
      r ∈ dropDupRows seen t →
        keyOf r ∉ seen ∧ t.find? (fun x => keyOf x == keyOf r) = some r := by
  intro t
  induction t with
  | nil => intro seen r hr; exact absurd hr (List.not_mem_nil r)
  | cons x xs ih =>
      intro seen r hr
      by_cases hx : keyOf x ∈ seen
      · rw [show dropDupRows seen (x :: xs) = dropDupRows seen xs from by
          simp [dropDupRows, hx]] at hr
        obtain ⟨hn, hfind⟩ := ih seen r hr
        have hne : (keyOf x == keyOf r) = false := by
          refine beq_eq_false_iff_ne.mpr ?_
          intro he
          exact hn (he ▸ hx)
        refine ⟨hn, ?_⟩
        rw [List.find?_cons, hne]
        exact hfind
      · rw [show dropDupRows seen (x :: xs)
            = x :: dropDupRows (keyOf x :: seen) xs from by
          simp [dropDupRows, hx]] at hr
        rcases List.mem_cons.mp hr with rfl | hr2
        · refine ⟨hx, ?_⟩
          rw [List.find?_cons, show (keyOf r == keyOf r) = true from beq_self_eq_true _]
        · obtain ⟨hn, hfind⟩ := ih (keyOf x :: seen) r hr2
          have hnx : keyOf r ≠ keyOf x := fun he =>
            hn (he ▸ List.mem_cons_self (keyOf x) seen)
          have hne : (keyOf x == keyOf r) = false :=
            beq_eq_false_iff_ne.mpr (fun he => hnx he.symm)
          refine ⟨fun hs => hn (List.mem_cons_of_mem _ hs), ?_⟩
          rw [List.find?_cons, hne]
          exact hfind

/-- Deduplication leaves pairwise-distinct (item, date) keys. -/
theorem dropDupRows_keys_nodup :
    ∀ (t : List DRow) (seen : List (String × ℤ)),
      ((dropDupRows seen t).map keyOf).Nodup
      ∧ ∀ k ∈ (dropDupRows seen t).map keyOf, k ∉ seen := by
  intro t
  induction t with
  | nil => intro seen; exact ⟨List.nodup_nil, by intro k hk; exact absurd hk (List.not_mem_nil k)⟩
  | cons x xs ih =>
      intro seen
      by_cases hx : keyOf x ∈ seen
      · rw [show dropDupRows seen (x :: xs) = dropDupRows seen xs from by
          simp [dropDupRows, hx]]
        exact ih seen
      · rw [show dropDupRows seen (x :: xs)
            = x :: dropDupRows (keyOf x :: seen) xs from by
          simp [dropDupRows, hx]]
        obtain ⟨hnd, hout⟩ := ih (keyOf x :: seen)
        constructor
        · rw [List.map_cons, List.nodup_cons]
          refine ⟨fun hk => ?_, hnd⟩
          exact (hout _ hk) (List.mem_cons_self _ _)
        · intro k hk
          rcases List.mem_cons.mp hk with rfl | hk2
          · exact hx
          · exact fun hs => (hout k hk2) (List.mem_cons_of_mem _ hs)

/-- A revenue sum over rows that are each the first of their key in `t`
is the once-per-key sum over those keys. -/
theorem revSum_eq_sumOnce (t : List DRow) :
    ∀ (l : List DRow),
      (∀ r ∈ l, t.find? (fun x => keyOf x == keyOf r) = some r) →
        revSum l = sumOnceByKey t (l.map keyOf) := by
  intro l
  induction l with
  | nil => intro _; rfl
  | cons r l ih =>
      intro h
      have hr := h r (List.mem_cons_self _ _)
      have hrest := ih (fun x hx => h x (List.mem_cons_of_mem _ hx))
      simp only [revSum, sumOnceByKey, List.map_cons, List.sum_cons] at *
      rw [hrest]
      congr 1
      rw [hr]
      rfl

/-- Rows of the latest snapshot come from the deduplicated table. -/
theorem latestSnap_sub (t : List DRow) (cfg : Config) :
    ∀ r ∈ latestSnapOf t cfg, r ∈ dropDupRows [] t := by
  intro r hr
  exact List.mem_of_mem_filter
    (List.mem_of_mem_filter (List.mem_of_mem_filter hr))

/-- Rows of the reference snapshot come from the deduplicated table. -/
theorem prevSnap_sub (t : List DRow) (cfg : Config) :
    ∀ r ∈ prevSnapOf t cfg, r ∈ dropDupRows [] t := by
  intro r hr
  exact List.mem_of_mem_filter
    (List.mem_of_mem_filter (List.mem_of_mem_filter hr))

/-- Sublist chain from the latest snapshot down to the deduplicated
table. -/
theorem latestSnap_sublist (t : List DRow) (cfg : Config) :
    List.Sublist (latestSnapOf t cfg) (dropDupRows [] t) := by
  refine List.Sublist.trans (List.filter_sublist _) ?_
  refine List.Sublist.trans (List.filter_sublist _) ?_
  exact List.filter_sublist _

/-- Claim C4 (confirmed): every revenue aggregate of the dashboard — total
latest revenue, reference-period revenue, revenue at risk, per-brand
revenue — ranges over snapshots of the (item, date)-deduplicated table,
whose keys are pairwise distinct, and each equals the once-per-key sum of
the canonical table's first-row revenue over the keys it covers.  In a
table where several rows repeat a key with the same revenue (variant
repetition) that revenue is therefore counted exactly once per (item,
date), not once per row. -/
theorem c4_aggregates_count_revenue_once_per_key (t : List DRow)
    (cfg : Config) (out : Outputs) (h : dashboard t cfg = .ok out) :
    (out.latest_snap.map keyOf).Nodup
    ∧ out.total_rev_latest = sumOnceByKey t (out.latest_snap.map keyOf)
    ∧ out.total_rev_4w = sumOnceByKey t (out.prev_snap.map keyOf)
    ∧ out.rev_at_risk = sumOnceByKey t (out.risky.map keyOf)
    ∧ ∀ b, brandRevOf t cfg b
        = sumOnceByKey t
            ((out.latest_snap.filter (fun r => r.brand_name == b)).map keyOf) := by
  rw [dashboard_ok_out h]
  have hfind : ∀ r ∈ dropDupRows ([] : List (String × ℤ)) t,
      t.find? (fun x => keyOf x == keyOf r) = some r :=
    fun r hr => (dropDupRows_find t [] r hr).2
  refine ⟨?_, ?_, ?_, ?_, ?_⟩
  · exact List.Nodup.sublist (List.Sublist.map keyOf (latestSnap_sublist t cfg))
      (dropDupRows_keys_nodup t []).1
  · exact revSum_eq_sumOnce t _
      (fun r hr => hfind r (latestSnap_sub t cfg r hr))
  · exact revSum_eq_sumOnce t _
      (fun r hr => hfind r (prevSnap_sub t cfg r hr))
  · exact revSum_eq_sumOnce t _
      (fun r hr => hfind r (latestSnap_sub t cfg r (List.mem_of_mem_filter hr)))
  · intro b
    exact revSum_eq_sumOnce t _
      (fun r hr => hfind r (latestSnap_sub t cfg r (List.mem_of_mem_filter hr)))

/-- Claim C4 witness: three raw rows repeating ("X", day 0) with revenue 1
run successfully; the latest-snapshot keys are distinct and the total
latest revenue is the once-per-key sum (which here is 1, not 3). -/
theorem c4_witness :
    dashboard tC4 cfgC4 = .ok (outputsOf tC4 cfgC4)
    ∧ ((outputsOf tC4 cfgC4).latest_snap.map keyOf).Nodup
    ∧ (outputsOf tC4 cfgC4).total_rev_latest
        = sumOnceByKey tC4 ((outputsOf tC4 cfgC4).latest_snap.map keyOf)
    ∧ (outputsOf tC4 cfgC4).latest_snap.map keyOf = [("X", 0)] :=
  have h : dashboard tC4 cfgC4 = .ok (outputsOf tC4 cfgC4) := rfl
  ⟨h, (c4_aggregates_count_revenue_once_per_key tC4 cfgC4 _ h).1,
    (c4_aggregates_count_revenue_once_per_key tC4 cfgC4 _ h).2.1, by decide⟩

/-- Specification of Python `min(seq, key=f)`: the result is an element of
the sequence, its key is minimal, and it is the first element whose key
attains that minimum (ties are broken by position, since only a strictly
smaller key replaces the current best). -/
theorem pyMinBy_spec (f : ℤ → ℕ) :
    ∀ (xs : List ℤ) (b : ℤ),
      pyMinBy f b xs ∈ b :: xs
      ∧ (∀ y ∈ b :: xs, f (pyMinBy f b xs) ≤ f y)
      ∧ (b :: xs).find? (fun y => f y == f (pyMinBy f b xs))
          = some (pyMinBy f b xs) := by
  intro xs
  induction xs with
  | nil =>
      intro b
      refine ⟨List.mem_singleton_self b, ?_, ?_⟩
      · intro y hy
        rcases List.mem_singleton.mp hy with rfl
        exact le_refl _
      · simp [pyMinBy, List.find?_cons]
  | cons x xs ih =>
      intro b
      by_cases hlt : f x < f b
      · have h := ih x
        have hpy : pyMinBy f b (x :: xs) = pyMinBy f x xs := by
          simp [pyMinBy, hlt]
        rw [hpy]
        have hresx : f (pyMinBy f x xs) ≤ f x :=
          h.2.1 x (List.mem_cons_self _ _)
        refine ⟨List.mem_cons_of_mem b h.1, ?_, ?_⟩
        · intro y hy
          rcases List.mem_cons.mp hy with rfl | hy2
          · exact le_of_lt (lt_of_le_of_lt hresx hlt)
          · exact h.2.1 y hy2
        · have hb : (f b == f (pyMinBy f x xs)) = false := by
            refine beq_eq_false_iff_ne.mpr ?_
            intro he
            exact absurd (lt_of_le_of_lt (he ▸ hresx) hlt) (lt_irrefl _)
          rw [List.find?_cons, hb]
          exact h.2.2
      · have h := ih b
        have hpy : pyMinBy f b (x :: xs) = pyMinBy f b xs := by
          simp [pyMinBy, hlt]
        rw [hpy]
        have hle : f (pyMinBy f b xs) ≤ f b := h.2.1 b (List.mem_cons_self _ _)
        have hIH := h.2.2
        refine ⟨?_, ?_, ?_⟩
        · rcases List.mem_cons.mp h.1 with h1 | h1
          · rw [h1]
            exact List.mem_cons_self _ _
          · exact List.mem_cons_of_mem _ (List.mem_cons_of_mem _ h1)
        · intro y hy
          rcases List.mem_cons.mp hy with rfl | hy2
          · exact hle
          · rcases List.mem_cons.mp hy2 with rfl | hy3
            · exact le_trans hle (le_of_not_lt hlt)
            · exact h.2.1 y (List.mem_cons_of_mem _ hy3)
        · by_cases hfb : (f b == f (pyMinBy f b xs)) = true
          · have hbe : some b = some (pyMinBy f b xs) := by
              rw [← hIH, List.find?_cons, hfb]
            rw [List.find?_cons, hfb]
            exact hbe
          · have hfb2 : (f b == f (pyMinBy f b xs)) = false :=
              Bool.eq_false_iff.mpr hfb
            have hfx : (f x == f (pyMinBy f b xs)) = false := by
              refine beq_eq_false_iff_ne.mpr ?_
              intro he
              have h1 : f b ≤ f x := le_of_not_lt hlt
              have h2 : f b = f (pyMinBy f b xs) :=
                le_antisymm (he ▸ h1) hle
              exact (beq_eq_false_iff_ne.mp hfb2) h2
            rw [List.find?_cons, hfb2, List.find?_cons, hfx]
            rw [List.find?_cons, hfb2] at hIH
            exact hIH

/-- Claim C5 (counterexample): with items A (days 24 and 47) and B (day
14), the latest date is 47 and the 4-weeks-ago target is 19; days 24 and
14 are distinct dates equidistant from the target (5 days), yet the
engine selects 24 — the *later* one, because it appears first among the
distinct dates — contradicting "ties broken by the earliest such date". -/
theorem c5_counterexample :
    (outputsOf tC5 cfgC5).nearest_4w = 24
    ∧ (14:ℤ) ∈ (outputsOf tC5 cfgC5).dates
    ∧ ((14:ℤ) - ((outputsOf tC5 cfgC5).latest_date - 28)).natAbs
        = ((24:ℤ) - ((outputsOf tC5 cfgC5).latest_date - 28)).natAbs
    ∧ (14:ℤ) < 24 := by
  decide

/-- Claim C5 (amended): the trailing reference date is a distinct date of
the date-filtered table at minimal absolute distance to (latest date − 4
weeks); when several distinct dates attain the minimum, the one whose
first occurrence comes earliest in the table's row order is selected (not
necessarily the earliest date). -/
theorem c5_nearest_minimal_first_appearance (t : List DRow) (cfg : Config)
    (out : Outputs) (h : dashboard t cfg = .ok out) :
    out.nearest_4w ∈ out.dates
    ∧ (∀ d ∈ out.dates,
        (out.nearest_4w - (out.latest_date - 28)).natAbs
          ≤ (d - (out.latest_date - 28)).natAbs)
    ∧ out.dates.find?
        (fun d => (d - (out.latest_date - 28)).natAbs
          == (out.nearest_4w - (out.latest_date - 28)).natAbs)
        = some out.nearest_4w := by
  have hd := dashboard_ok_dates h
  rw [dashboard_ok_out h]
  rcases hds : datesOf t cfg with _ | ⟨d0, ds⟩
  · exact absurd hds hd
  · have hnear : nearestOf t cfg
        = pyMinBy (fun x => (x - fourWAgoOf t cfg).natAbs) d0 ds := by
      unfold nearestOf
      rw [hds]
    have hspec := pyMinBy_spec (fun x => (x - fourWAgoOf t cfg).natAbs) ds d0
    refine ⟨?_, ?_, ?_⟩
    · show nearestOf t cfg ∈ datesOf t cfg
      rw [hds, hnear]
      exact hspec.1
    · show ∀ d ∈ datesOf t cfg,
        (nearestOf t cfg - (latestDateOf t cfg - 28)).natAbs
          ≤ (d - (latestDateOf t cfg - 28)).natAbs
      rw [hds, hnear]
      exact hspec.2.1
    · show (datesOf t cfg).find?
          (fun d => (d - (latestDateOf t cfg - 28)).natAbs
            == (nearestOf t cfg - (latestDateOf t cfg - 28)).natAbs)
          = some (nearestOf t cfg)
      rw [hds, hnear]
      exact hspec.2.2

/-- Claim C5 witness: on the concrete table of the counterexample the
amended characterisation holds — 24 is a minimal-distance date and the
first such date in appearance order. -/
theorem c5_witness :
    dashboard tC5 cfgC5 = .ok (outputsOf tC5 cfgC5)
    ∧ (outputsOf tC5 cfgC5).nearest_4w ∈ (outputsOf tC5 cfgC5).dates
    ∧ (outputsOf tC5 cfgC5).dates.find?
        (fun d => (d - ((outputsOf tC5 cfgC5).latest_date - 28)).natAbs
          == ((outputsOf tC5 cfgC5).nearest_4w
              - ((outputsOf tC5 cfgC5).latest_date - 28)).natAbs)
        = some (outputsOf tC5 cfgC5).nearest_4w :=
  have h : dashboard tC5 cfgC5 = .ok (outputsOf tC5 cfgC5) := rfl
  ⟨h, (c5_nearest_minimal_first_appearance tC5 cfgC5 _ h).1,
    (c5_nearest_minimal_first_appearance tC5 cfgC5 _ h).2.2⟩

/-- Every row of `sku_merged` carries the growth computed by the per-SKU
growth lambda from its own latest and reference revenues. -/
theorem skuMerged_growth {t : List DRow} {cfg : Config} {s : SkuRow}
    (hs : s ∈ skuMergedOf t cfg) :
    s.growth_pct = skuGrowth s.revenue_latest s.revenue_4w := by
  rcases List.mem_filterMap.mp hs with ⟨i, _, hmap⟩
  rcases Option.map_eq_some'.mp hmap with ⟨r, _, hrec⟩
  rw [← hrec]

/-- Claim C6 (confirmed): for every per-SKU row, growth equals
(latest − reference)/reference × 100 exactly when the reference revenue is
present and strictly positive (and the latest revenue is present); growth
is undefined — null, not zero, not an error — when the reference revenue
is absent or ≤ 0; and a row with undefined growth is in neither the
high-scaling nor the declining set. -/
theorem c6_sku_growth_null_propagation (t : List DRow) (cfg : Config)
    (out : Outputs) (h : dashboard t cfg = .ok out) :
    ∀ s ∈ out.sku_merged,
      (∀ v l, s.revenue_4w = some v → 0 < v → s.revenue_latest = some l →
        s.growth_pct = some ((l - v) / v * 100))
      ∧ (s.revenue_4w = none → s.growth_pct = none)
      ∧ (∀ v, s.revenue_4w = some v → v ≤ 0 → s.growth_pct = none)
      ∧ (s.growth_pct = none → s ∉ out.high_scaling ∧ s ∉ out.declining) := by
  rw [dashboard_ok_out h]
  intro s hs
  have hs2 : s ∈ skuMergedOf t cfg := hs
  have hg := skuMerged_growth hs2
  refine ⟨?_, ?_, ?_, ?_⟩
  · intro v l hv hvpos hl
    rw [hg, hv, hl]
    simp [skuGrowth, hvpos]
  · intro hv
    rw [hg, hv]
    rfl
  · intro v hv hvle
    rw [hg, hv]
    simp [skuGrowth, not_lt.mpr hvle]
  · intro hnone
    constructor
    · intro hmem
      have hm2 : s ∈ highScalingOf t cfg := hmem
      have hpred := (List.mem_filter.mp hm2).2
      rw [hnone] at hpred
      simp [optGT] at hpred
    · intro hmem
      have hm2 : s ∈ decliningOf t cfg := hmem
      have hpred := (List.mem_filter.mp hm2).2
      rw [hnone] at hpred
      simp [optNeg] at hpred

/-- Claim C6 witness: on an item observed at the latest date (revenue 2)
and the reference date (revenue 1), the per-SKU row is produced and its
growth is the defined value (2 − 1)/1 × 100. -/
theorem c6_witness :
    dashboard tC6 cfgC6 = .ok (outputsOf tC6 cfgC6)
    ∧ sC6 ∈ (outputsOf tC6 cfgC6).sku_merged
    ∧ sC6.growth_pct = some (((2:ℚ) - 1) / 1 * 100) :=
  have h : dashboard tC6 cfgC6 = .ok (outputsOf tC6 cfgC6) := rfl
  have hm : sC6 ∈ (outputsOf tC6 cfgC6).sku_merged := by
    have e : (outputsOf tC6 cfgC6).sku_merged = [sC6] := rfl
    rw [e]
    exact List.mem_singleton_self sC6
  ⟨h, hm,
    (c6_sku_growth_null_propagation tC6 cfgC6 _ h sC6 hm).1 1 2 rfl
      (by norm_num) rfl⟩

/-- Claim C7 (confirmed): portfolio growth is the growth formula applied
to the summed latest and reference revenues of the filtered, deduplicated
snapshots, and it equals 0 — not null, not an error — whenever the
reference revenue sum is 0, in particular when the reference snapshot is
empty; this zero policy is distinct from the per-SKU undefined rule. -/
theorem c7_portfolio_growth_zero_policy (t : List DRow) (cfg : Config)
    (out : Outputs) (h : dashboard t cfg = .ok out) :
    (out.total_rev_4w = 0 → out.growth_pct = 0)
    ∧ (out.total_rev_4w ≠ 0 →
        out.growth_pct
          = (out.total_rev_latest - out.total_rev_4w) / out.total_rev_4w * 100)
    ∧ (out.prev_snap = [] → out.growth_pct = 0) := by
  rw [dashboard_ok_out h]
  refine ⟨?_, ?_, ?_⟩
  · intro h0
    have h02 : totalRev4wOf t cfg = 0 := h0
    show growthPctOf t cfg = 0
    simp [growthPctOf, h02]
  · intro hne
    have hne2 : totalRev4wOf t cfg ≠ 0 := hne
    show growthPctOf t cfg
      = (totalRevLatestOf t cfg - totalRev4wOf t cfg) / totalRev4wOf t cfg * 100
    simp [growthPctOf, hne2]
  · intro hempty
    have h02 : totalRev4wOf t cfg = 0 := by
      show revSum (prevSnapOf t cfg) = 0
      have he : prevSnapOf t cfg = [] := hempty
      rw [he]
      rfl
    show growthPctOf t cfg = 0
    simp [growthPctOf, h02]

/-- Claim C7 witness: with the SKU filter restricted to an item absent
from the reference date, the reference snapshot is empty and portfolio
growth is 0. -/
theorem c7_witness :
    dashboard tC7 cfgC7 = .ok (outputsOf tC7 cfgC7)
    ∧ (outputsOf tC7 cfgC7).prev_snap = []
    ∧ (outputsOf tC7 cfgC7).growth_pct = 0 :=
  have h : dashboard tC7 cfgC7 = .ok (outputsOf tC7 cfgC7) := rfl
  have hp : (outputsOf tC7 cfgC7).prev_snap = [] := rfl
  ⟨h, hp, (c7_portfolio_growth_zero_policy tC7 cfgC7 _ h).2.2 hp⟩

/-- Claim C10 (confirmed): in the single-label scatter view, any row
satisfying the At-Risk predicate is labelled "At Risk" — in particular a
row that satisfied both the At-Risk and High-Scaling predicates would be
reported as At Risk only — while membership in the high-scaling reporting
set is computed independently, exactly from the growth and rating
predicates, with no At-Risk exclusion. -/
theorem c10_at_risk_precedence (t : List DRow) (cfg : Config)
    (out : Outputs) (h : dashboard t cfg = .ok out) :
    (∀ s lab, (s, lab) ∈ out.scatter →
      s.rating < cfg.rating_thresh → cfg.count_thresh < s.rating_count →
      lab = "At Risk")
    ∧ (∀ s, s ∈ out.high_scaling ↔
        s ∈ out.sku_merged
        ∧ optGT s.growth_pct cfg.growth_thresh = true
        ∧ cfg.rating_thresh ≤ s.rating) := by
  rw [dashboard_ok_out h]
  constructor
  · intro s lab hmem h1 h2
    have hm2 : (s, lab) ∈ scatterOf t cfg := hmem
    rcases List.mem_map.mp hm2 with ⟨s0, _, heq⟩
    have h3 : s0 = s := congrArg Prod.fst heq
    have h4 : riskLabel cfg s0 = lab := congrArg Prod.snd heq
    subst h3
    rw [← h4]
    unfold riskLabel
    rw [if_pos ⟨h1, h2⟩]
  · intro s
    constructor
    · intro hmem
      have hm2 : s ∈ highScalingOf t cfg := hmem
      have hp := List.mem_filter.mp hm2
      have hb := Bool.and_eq_true_iff.mp hp.2
      exact ⟨hp.1, hb.1, of_decide_eq_true hb.2⟩
    · rintro ⟨hm, hgt, hge⟩
      show s ∈ highScalingOf t cfg
      refine List.mem_filter.mpr ⟨hm, ?_⟩
      rw [Bool.and_eq_true_iff]
      exact ⟨hgt, decide_eq_true hge⟩

/-- Claim C10 witness: an item with rating 3 < 4, review count 500 > 200
and positive growth appears in the scatter view and is labelled
"At Risk". -/
theorem c10_witness :
    dashboard tC10 cfgC10 = .ok (outputsOf tC10 cfgC10)
    ∧ (sC10, riskLabel cfgC10 sC10) ∈ (outputsOf tC10 cfgC10).scatter
    ∧ riskLabel cfgC10 sC10 = "At Risk" :=
  have h : dashboard tC10 cfgC10 = .ok (outputsOf tC10 cfgC10) := rfl
  have hm : (sC10, riskLabel cfgC10 sC10) ∈ (outputsOf tC10 cfgC10).scatter := by
    have e : (outputsOf tC10 cfgC10).scatter
        = [(sC10, riskLabel cfgC10 sC10)] := rfl
    rw [e]
    exact List.mem_singleton_self _
  ⟨h, hm,
    (c10_at_risk_precedence tC10 cfgC10 _ h).1 sC10 (riskLabel cfgC10 sC10) hm
      (by norm_num [sC10, cfgC10]) (by norm_num [sC10, cfgC10])⟩

end Datavio
